import Mathlib

/-!
# Shallow embedding of `stk/calculators/energy/macromodel.py`

This file models `MacroModelEnergy.get_energy` from the repository.  The
method is pure orchestration around the filesystem and two external
processes, so the embedding makes the externally-determined data explicit:

* the contents of the `<token>.log` file produced by `bmin` is an input,
  modelled as a `List String` of lines (without trailing newlines; the
  full file content is their newline-intercalation);
* since the license-failure branch retries recursively with a fresh token,
  a whole run is parameterised by the sequence of log files the successive
  attempts would observe (`List (List String)`);
* the only observable side effect the claims speak about — whether
  `move_generated_macromodel_files(basename, output_dir)` ran for a given
  attempt before control left that attempt — is recorded as one `Bool`
  per attempt consumed.

Python string primitives used by the source (`str.split()` with no
arguments, `str.replace('=', '')`, the `in` substring test, `float()`)
are embedded as executable Lean functions; they are written by structural
recursion over `List Char` so that concrete instances reduce with `decide`.
`float()` is modelled as exact decimal parsing into `ℚ`: every numeric
token this program feeds to `float` is a plain decimal literal, for which
Python's `float` accepts exactly the grammar implemented here (optional
sign, digits, optional fractional part) and equality of parsed values
coincides with equality of the exact decimal values.
-/

/-- Occurrence of `pat` as a contiguous run inside the character list `s`:
Python's `pat in s` on strings. -/
def listContains (pat s : List Char) : Bool :=
  (List.range (s.length + 1)).any fun i => pat.isPrefixOf (s.drop i)

/-- Python `pat in s`: `pat` occurs as a contiguous substring of `s`. -/
def pyIn (pat s : String) : Bool :=
  listContains pat.data s.data

/-- Helper for `pySplit`: walk the characters, `acc` holding the (reversed)
current token. -/
def pySplitAux : List Char → List Char → List String
  | [], [] => []
  | [], acc => [String.mk acc.reverse]
  | c :: cs, acc =>
      if c.isWhitespace then
        match acc with
        | [] => pySplitAux cs []
        | _ => String.mk acc.reverse :: pySplitAux cs []
      else pySplitAux cs (c :: acc)

/-- Python `s.split()` with no arguments: split on runs of whitespace,
discarding empty pieces (so leading/trailing whitespace is ignored). -/
def pySplit (s : String) : List String :=
  pySplitAux s.data []

/-- Python `s.replace("=", "")`: delete every `=` character. -/
def stripEquals (s : String) : String :=
  String.mk (s.data.filter (· ≠ '='))

/-- Accumulate a run of decimal digits into a natural number; `none` if a
non-digit is met. -/
def digitsToNat : List Char → Nat → Option Nat
  | [], acc => some acc
  | c :: cs, acc =>
      if c.isDigit then digitsToNat cs (acc * 10 + (c.toNat - 48)) else none

/-- An exact decimal value `m / 10 ^ k`, the result of parsing a decimal
literal.  Kept unreduced so that every computation in the model is by
structural recursion (kernel-reducible); `Frac.toRat` interprets it. -/
abbrev Frac := Int × Nat

/-- The rational value denoted by an exact decimal. -/
def Frac.toRat (p : Frac) : ℚ := (p.1 : ℚ) / (10 : ℚ) ^ p.2

/-- Parse an unsigned decimal literal `digits [. digits]` (at least one
digit overall) into an exact decimal. -/
def parseUnsigned (cs : List Char) : Option Frac :=
  let intPart := cs.takeWhile (· ≠ '.')
  let rest := cs.dropWhile (· ≠ '.')
  match rest with
  | [] =>
      if intPart.isEmpty then none
      else (digitsToNat intPart 0).map fun n => ((n : Int), 0)
  | _ :: fracPart =>
      if intPart.isEmpty && fracPart.isEmpty then none
      else
        match digitsToNat intPart 0, digitsToNat fracPart 0 with
        | some i, some f =>
            some (((i * 10 ^ fracPart.length + f : Nat) : Int), fracPart.length)
        | _, _ => none

/-- Python `float(s)` on the tokens this program feeds it (tokens produced
by `str.split()` never carry whitespace; no exponents or special values
occur): optional sign followed by an unsigned decimal literal.  `none`
models `float` raising `ValueError`. -/
def pyFloat (s : String) : Option Frac :=
  match s.data with
  | '-' :: rest => (parseUnsigned rest).map fun p => (-p.1, p.2)
  | '+' :: rest => parseUnsigned rest
  | cs => parseUnsigned cs

/-- Python `l[-2]` on a list: second-to-last element, `none` when the list
has fewer than two elements (Python raises `IndexError` there). -/
def secondToLast (l : List String) : Option String :=
  l.get? (l.length - 2)

/-- The file content obtained by `f.read()` when the file's lines (without
their terminators) are `ls`: the lines joined by newlines. -/
def joinLines : List String → String
  | [] => ""
  | [l] => l
  | l :: ls => l ++ "\n" ++ joinLines ls

/-! ## The `MacroModelEnergy` calculator -/

/-- The constructor state of `MacroModelEnergy.__init__`: the four
parameters are stored unchanged (`use_cache` is forwarded to the base
class). -/
structure MacroModelEnergy where
  macromodel_path : String
  output_dir : Option String := none
  force_field : Int := 16
  use_cache : Bool := false

/-- Lines 81–85 of `get_energy`: `output_dir = basename` when
`self._output_dir is None`, else `output_dir = self._output_dir`. -/
def MacroModelEnergy.resolveOutputDir
    (c : MacroModelEnergy) (basename : String) : String :=
  match c.output_dir with
  | none => basename
  | some d => d

/-- Python `b.startswith(pre)` / the leading test of `posixpath.join`. -/
def strStartsWith (s pre : String) : Bool :=
  pre.data.isPrefixOf s.data

/-- Python `s.endswith(suf)`. -/
def strEndsWith (s suf : String) : Bool :=
  suf.data.reverse.isPrefixOf s.data.reverse

/-- POSIX `os.path.join(a, b)` for one extra component: an absolute
`b` discards `a`; otherwise a separator is inserted unless `a` is empty
or already ends in one. -/
def osPathJoin (a b : String) : String :=
  if strStartsWith b "/" then b
  else if a = "" || strEndsWith a "/" then a ++ b
  else a ++ "/" ++ b

/-- Lines 90–96: `convrt_cmd = [convrt_app, tmp_file, f'{basename}.mae']`
with `convrt_app = os.path.join(self._macromodel_path, 'utilities',
'structconvert')` and `tmp_file = f'{basename}.mol'`. -/
def convrtCmd (c : MacroModelEnergy) (basename : String) : List String :=
  [ osPathJoin (osPathJoin c.macromodel_path "utilities") "structconvert",
    basename ++ ".mol",
    basename ++ ".mae" ]

/-- Lines 121–127: `cmd = [os.path.join(self._macromodel_path, 'bmin'),
basename, "-WAIT", "-LOCAL"]`. -/
def bminCmd (c : MacroModelEnergy) (basename : String) : List String :=
  [ osPathJoin c.macromodel_path "bmin",
    basename,
    "-WAIT",
    "-LOCAL" ]

/-- The argument lists of the external processes one attempt spawns, in
spawn order.  Both are run through `subprocess.call` with the arguments
as a list (no shell) and block until the child exits. -/
def spawnedCommands (c : MacroModelEnergy) (basename : String) :
    List (List String) :=
  [convrtCmd c basename, bminCmd c basename]

/-- Python `str(n)` rendered into a width-`w` field, right-justified with
spaces: `"{:w}".format(n)` for an integer `n`. -/
def rightJustify (w : Nat) (s : String) : String :=
  String.mk (List.replicate (w - s.length) ' ') ++ s

/-- Lines 99–119: the `<token>.com` command script, with `{0}` replaced by
`basename` and `{1:8}` by the force-field code right-justified to width 8
(adjacent Python string literals concatenated exactly as in the source). -/
def inputScript (basename : String) (force_field : Int) : String :=
  basename ++ ".mae\n" ++
  basename ++ "-out.maegz\n" ++
  " MMOD       0      1      0      0     0.0000     " ++
  "0.0000     0.0000     0.0000\n" ++
  " FFLD" ++ rightJustify 8 (toString force_field) ++
  "      1      0      0     1.0000     " ++
  "0.0000     0.0000     0.0000\n" ++
  " BGIN       0      0      0      0     0.0000     " ++
  "0.0000     0.0000     0.0000\n" ++
  " READ      -1      0      0      0     0.0000     " ++
  "0.0000     0.0000     0.0000\n" ++
  " ELST      -1      0      0      0     0.0000     " ++
  "0.0000     0.0000     0.0000\n" ++
  " WRIT       0      0      0      0     0.0000     " ++
  "0.0000     0.0000     0.0000\n" ++
  " END       0      0      0      0     0.0000     " ++
  "0.0000     0.0000     0.0000\n\n"

/-- Helper for viewing a generated file as lines: split on `'\n'`,
keeping empty pieces (Python `s.split('\n')` semantics). -/
def splitNlAux : List Char → List Char → List String
  | [], acc => [String.mk acc.reverse]
  | c :: cs, acc =>
      if c = '\n' then String.mk acc.reverse :: splitNlAux cs []
      else splitNlAux cs (c :: acc)

/-- The lines of a string, split on newline characters. -/
def splitLines (s : String) : List String := splitNlAux s.data []

/-! ## Log scanning (lines 129–150) -/

/-- The literal the scan looks for, byte-for-byte from line 141 of the
source: 19 spaces followed by `Total Energy =`. -/
def totalEnergyMarker : String := "                   Total Energy ="

/-- Line 134's literal. -/
def licenseFailureMsg : String :=
  "FATAL -96: Could not check out a license for mmlibs"

/-- Line 141's test: the marker occurs somewhere in the line. -/
def isEnergyLine (line : String) : Bool := pyIn totalEnergyMarker line

/-- Lines 133–134: the license-failure test is a substring check against
the whole file content (`f.read()`). -/
def licenseFailure (log : List String) : Bool :=
  pyIn licenseFailureMsg (joinLines log)

/-- Line 142: `float(line.split()[-2].replace("=", ""))`.  `none` models
an unhandled exception (`IndexError` from `[-2]` or `ValueError` from
`float`). -/
def parseEnergyValue (line : String) : Option Frac :=
  (secondToLast (pySplit line)).bind fun t => pyFloat (stripEquals t)

/-- Outcome of the `for line in f` scan, lines 139–142: `eng` bound to the
value of the last matching line, still unbound, or an exception escaped
from a matching line's parse. -/
inductive ScanResult where
  | value (v : Frac)
  | unbound
  | error
deriving DecidableEq, Repr

/-- The scan loop itself: `acc` is the current binding state of `eng`. -/
def scanLog : List String → Option Frac → ScanResult
  | [], none => .unbound
  | [], some v => .value v
  | line :: rest, acc =>
      if isEnergyLine line then
        match parseEnergyValue line with
        | some v => scanLog rest (some v)
        | none => .error
      else scanLog rest acc

/-- Caller-observable outcome of `get_energy`: a returned energy, the
`EnergyError` raised through the `except UnboundLocalError` handler, an
unhandled `ValueError`/`IndexError` escaping from line 142, or still
inside the license-failure retry recursion when the supplied attempt
logs run out. -/
inductive RunResult where
  | ok (v : Frac)
  | energyError
  | valueError
  | retrying
deriving DecidableEq, Repr

/-- Model of `get_energy`, abstracted over the sequence of log files the successive
attempts observe (each recursive license retry consumes the next log,
produced under a fresh token).  The second component records, per attempt
consumed, whether `move_generated_macromodel_files(basename, output_dir)`
ran for that attempt's token before control left it:

* license-failure branch (line 136): `return self.get_energy(mol)`
  executes before the `try/finally`, so the current attempt's files are
  never moved — recorded `false`;
* scan completes (lines 144–150): both `return eng` and the
  `EnergyError` raise pass through `finally`, which moves the files
  before control leaves — recorded `true`;
* an exception escaping from line 142 happens before the `try/finally`
  is entered, so nothing is moved — recorded `false`. -/
def getEnergyRun : List (List String) → RunResult × List Bool
  | [] => (.retrying, [])
  | log :: rest =>
      if licenseFailure log then
        let r := getEnergyRun rest
        (r.1, false :: r.2)
      else
        match scanLog log none with
        | .value v => (.ok v, [true])
        | .unbound => (.energyError, [true])
        | .error => (.valueError, [false])

/-! ## Helper lemmas about the scan loop -/

lemma scanLog_no_match (log : List String)
    (h : ∀ l ∈ log, isEnergyLine l = false) :
    (scanLog log none = .unbound) ∧ ∀ v, scanLog log (some v) = .value v := by
  induction log with
  | nil => exact ⟨rfl, fun _ => rfl⟩
  | cons line rest ih =>
      have hline := h line (List.mem_cons_self _ _)
      have hrest := ih fun l hl => h l (List.mem_cons_of_mem _ hl)
      constructor
      · simp [scanLog, hline, hrest.1]
      · intro v; simp [scanLog, hline, hrest.2 v]

lemma scanLog_last_match (log : List String) :
    ∀ (acc : Option Frac) (lastL : String) (v : Frac),
    (log.filter isEnergyLine).getLast? = some lastL →
    parseEnergyValue lastL = some v →
    (∀ l ∈ log, isEnergyLine l = true → (parseEnergyValue l).isSome) →
    scanLog log acc = .value v := by
  induction log with
  | nil => intro acc lastL v hlast; simp at hlast
  | cons line rest ih =>
      intro acc lastL v hlast hv hparse
      by_cases hline : isEnergyLine line = true
      · have hsome : (parseEnergyValue line).isSome :=
          hparse line (List.mem_cons_self _ _) hline
        obtain ⟨w, hw⟩ := Option.isSome_iff_exists.mp hsome
        have hstep : scanLog (line :: rest) acc = scanLog rest (some w) := by
          simp [scanLog, hline, hw]
        rw [hstep]
        rcases hfr : rest.filter isEnergyLine with _ | ⟨b, t⟩
        · -- no further matches: the head is the last match
          have hnomatch : ∀ l ∈ rest, isEnergyLine l = false := by
            intro l hl
            have := List.filter_eq_nil_iff.mp hfr l hl
            simpa using this
          have : lastL = line := by
            rw [List.filter_cons_of_pos hline, hfr] at hlast
            simpa using hlast.symm
          subst this
          have : w = v := by rw [hw] at hv; exact Option.some.inj hv
          subst this
          exact (scanLog_no_match rest hnomatch).2 w
        · have hlast' : (rest.filter isEnergyLine).getLast? = some lastL := by
            rw [List.filter_cons_of_pos hline, hfr] at hlast
            rw [hfr]
            rwa [List.getLast?_cons_cons] at hlast
          exact ih (some w) lastL v hlast' hv
            fun l hl => hparse l (List.mem_cons_of_mem _ hl)
      · have hline' : isEnergyLine line = false := by
          simpa using hline
        have hstep : scanLog (line :: rest) acc = scanLog rest acc := by
          simp [scanLog, hline']
        rw [hstep]
        have hlast' : (rest.filter isEnergyLine).getLast? = some lastL := by
          rwa [List.filter_cons_of_neg (by simp [hline'])] at hlast
        exact ih acc lastL v hlast' hv
          fun l hl => hparse l (List.mem_cons_of_mem _ hl)

lemma scanLog_error (pre : List String) (badL : String)
    (hbad : isEnergyLine badL = true) (hfail : parseEnergyValue badL = none) :
    ∀ acc, (∀ l ∈ pre, isEnergyLine l = true → (parseEnergyValue l).isSome) →
    scanLog (pre ++ [badL]) acc = .error := by
  induction pre with
  | nil => intro acc _; simp [scanLog, hbad, hfail]
  | cons line rest ih =>
      intro acc hparse
      by_cases hline : isEnergyLine line = true
      · obtain ⟨w, hw⟩ := Option.isSome_iff_exists.mp
          (hparse line (List.mem_cons_self _ _) hline)
        simpa [scanLog, hline, hw] using
          ih (some w) fun l hl => hparse l (List.mem_cons_of_mem _ hl)
      · have hline' : isEnergyLine line = false := by simpa using hline
        simpa [scanLog, hline'] using
          ih acc fun l hl => hparse l (List.mem_cons_of_mem _ hl)

lemma getLast?_of_all_eq {α : Type} (l : List α) (a : α) :
    l ≠ [] → (∀ x ∈ l, x = a) → l.getLast? = some a := by
  induction l with
  | nil => intro h; exact absurd rfl h
  | cons x t ih =>
      intro _ hall
      rcases t with _ | ⟨y, t'⟩
      · simpa using hall x (List.mem_cons_self _ _)
      · rw [List.getLast?_cons_cons]
        exact ih (by simp) fun z hz => hall z (List.mem_cons_of_mem _ hz)

lemma getEnergyRun_license_prefix (bad : List (List String)) :
    ∀ rest, (∀ log ∈ bad, licenseFailure log = true) →
    (getEnergyRun (bad ++ rest)).1 = (getEnergyRun rest).1 := by
  induction bad with
  | nil => intro rest _; rfl
  | cons log bad' ih =>
      intro rest hbad
      have hl := hbad log (List.mem_cons_self _ _)
      have := ih rest fun l hl' => hbad l (List.mem_cons_of_mem _ hl')
      simp [getEnergyRun, hl, this]

lemma getEnergyRun_single (log : List String) (hlic : licenseFailure log = false) :
    getEnergyRun [log] =
      match scanLog log none with
      | .value v => (.ok v, [true])
      | .unbound => (.energyError, [true])
      | .error => (.valueError, [false]) := by
  simp [getEnergyRun, hlic]

/-- C1: if the log contains the line
`"                   Total Energy =    -123.456 kJ/mol"`, every
marker-matching line is that line, and the license-failure substring is
absent, `get_energy` returns exactly `-123.456`, parsed from the line's
second-to-last whitespace token with `=` stripped (and the attempt's
files are moved). -/
theorem C1_energy_line_parsed (log : List String)
    (hmem : "                   Total Energy =    -123.456 kJ/mol" ∈ log)
    (honly : ∀ l ∈ log, isEnergyLine l = true →
      l = "                   Total Energy =    -123.456 kJ/mol")
    (hlic : licenseFailure log = false) :
    getEnergyRun [log] = (.ok (-123456, 3), [true]) ∧
      Frac.toRat (-123456, 3) = (-123.456 : ℚ) := by
  constructor
  · have hfilterne : log.filter isEnergyLine ≠ [] := by
      intro h
      exact (List.filter_eq_nil_iff.mp h _ hmem) (by decide)
    have hall : ∀ x ∈ log.filter isEnergyLine,
        x = "                   Total Energy =    -123.456 kJ/mol" :=
      fun x hx => honly x (List.mem_of_mem_filter hx) (List.of_mem_filter hx)
    have hlast := getLast?_of_all_eq _ _ hfilterne hall
    have hscan := scanLog_last_match log none _ (-123456, 3) hlast (by decide)
      (fun l hl hm => by rw [honly l hl hm]; decide)
    rw [getEnergyRun_single log hlic, hscan]
  · norm_num [Frac.toRat]

theorem C1_energy_line_parsed_witness :
    ("                   Total Energy =    -123.456 kJ/mol" ∈
      ["                   Total Energy =    -123.456 kJ/mol"]) ∧
    getEnergyRun [["                   Total Energy =    -123.456 kJ/mol"]] =
      (.ok (-123456, 3), [true]) ∧
    Frac.toRat (-123456, 3) = (-123.456 : ℚ) :=
  ⟨by decide,
   C1_energy_line_parsed _ (by decide) (by decide) (by decide)⟩

/-- C2: with two or more marker-matching lines, all of which parse, the
value returned is the one parsed from the last matching line in file
order. -/
theorem C2_last_match_wins (log : List String) (lastL : String) (v : Frac)
    (hlic : licenseFailure log = false)
    (htwo : 2 ≤ (log.filter isEnergyLine).length)
    (hparse : ∀ l ∈ log, isEnergyLine l = true → (parseEnergyValue l).isSome)
    (hlast : (log.filter isEnergyLine).getLast? = some lastL)
    (hv : parseEnergyValue lastL = some v) :
    getEnergyRun [log] = (.ok v, [true]) := by
  rw [getEnergyRun_single log hlic, scanLog_last_match log none lastL v hlast hv hparse]

theorem C2_last_match_wins_witness :
    (2 ≤ ((["                   Total Energy = 1.5 X",
            "                   Total Energy = 2.5 X"] : List String).filter
              isEnergyLine).length) ∧
    getEnergyRun [["                   Total Energy = 1.5 X",
                   "                   Total Energy = 2.5 X"]] =
      (.ok (25, 1), [true]) :=
  ⟨by decide,
   C2_last_match_wins _ "                   Total Energy = 2.5 X" (25, 1)
     (by decide) (by decide) (by decide) (by decide) (by decide)⟩

/-- C3: with no marker-matching line and no license-failure substring
(e.g. an empty log), `get_energy` raises `EnergyError`, and the
token-prefixed artifacts are relocated (the `finally` block runs) before
the error propagates — recorded as the `true` move flag. -/
theorem C3_energy_error (log : List String)
    (hlic : licenseFailure log = false)
    (hnone : ∀ l ∈ log, isEnergyLine l = false) :
    getEnergyRun [log] = (.energyError, [true]) := by
  rw [getEnergyRun_single log hlic, (scanLog_no_match log hnone).1]

theorem C3_energy_error_witness :
    licenseFailure ([] : List String) = false ∧
    getEnergyRun [([] : List String)] = (.energyError, [true]) :=
  ⟨by decide, C3_energy_error [] (by decide) (by decide)⟩

/-- C4: any number of leading attempts whose logs contain the
license-failure substring are retried transparently (each with a fresh
token consuming the next log); the caller-observable outcome is exactly
that of the first attempt whose log lacks the substring. -/
theorem C4_license_retry (bad rest : List (List String))
    (hbad : ∀ log ∈ bad, licenseFailure log = true) :
    (getEnergyRun (bad ++ rest)).1 = (getEnergyRun rest).1 :=
  getEnergyRun_license_prefix bad rest hbad

theorem C4_license_retry_witness :
    (∀ log ∈ [["FATAL -96: Could not check out a license for mmlibs"],
              ["FATAL -96: Could not check out a license for mmlibs"]],
        licenseFailure log = true) ∧
    (getEnergyRun ([["FATAL -96: Could not check out a license for mmlibs"],
                    ["FATAL -96: Could not check out a license for mmlibs"]] ++
        [["                   Total Energy = 10.0 X"]])).1 =
      (getEnergyRun [["                   Total Energy = 10.0 X"]]).1 :=
  ⟨by decide, C4_license_retry _ _ (by decide)⟩

/-- C5 counterexample: in the license-failure retry scenario the first
attempt's files are never moved (`false` flag for attempt 1), refuting
the claim that relocation happens on the retry exit path too. -/
theorem C5_cleanup_counterexample :
    licenseFailure ["FATAL -96: Could not check out a license for mmlibs"] = true ∧
    getEnergyRun [["FATAL -96: Could not check out a license for mmlibs"],
                  ["                   Total Energy = 10.0 X"]] =
      (.ok (100, 1), [false, true]) := by decide

/-- C5 (amended): the relocation runs before control leaves the invocation
on the successful-return and `EnergyError` paths, but on the
license-failure retry path the retrying attempt's own artifacts are not
relocated (only later attempts handle their own). -/
theorem C5_cleanup_amended (log : List String) (rest : List (List String)) :
    (licenseFailure log = false → scanLog log none ≠ .error →
      (getEnergyRun (log :: rest)).2 = [true]) ∧
    (licenseFailure log = true →
      (getEnergyRun (log :: rest)).2 = false :: (getEnergyRun rest).2) := by
  constructor
  · intro hlic hne
    rcases h : scanLog log none with v | _ | _ <;>
      simp [getEnergyRun, hlic, h] at hne ⊢
  · intro hlic
    simp [getEnergyRun, hlic]

theorem C5_cleanup_amended_witness :
    (getEnergyRun [["                   Total Energy = 10.0 X"]]).2 = [true] ∧
    (getEnergyRun [["FATAL -96: Could not check out a license for mmlibs"],
                   ["                   Total Energy = 10.0 X"]]).2 =
      false :: (getEnergyRun [["                   Total Energy = 10.0 X"]]).2 :=
  ⟨(C5_cleanup_amended ["                   Total Energy = 10.0 X"] []).1
      (by decide) (by decide),
   (C5_cleanup_amended ["FATAL -96: Could not check out a license for mmlibs"]
      [["                   Total Energy = 10.0 X"]]).2 (by decide)⟩

/-- C6 counterexample: the line `"Total Energy = 10.0 X"` does contain
the informal substring `"Total Energy ="` yet is not recognized (the
source's marker carries 19 leading spaces), so the claimed retry
scenario ends in `EnergyError` rather than returning `10.0`. -/
theorem C6_marker_counterexample :
    pyIn "Total Energy =" "Total Energy = 10.0 X" = true ∧
    isEnergyLine "Total Energy = 10.0 X" = false ∧
    getEnergyRun [["FATAL -96: Could not check out a license for mmlibs"],
                  ["Total Energy = 10.0 X"]] =
      (.energyError, [false, true]) := by decide

/-- C6 (amended): a line is recognized only when it contains the full
33-character marker (19 leading spaces then `Total Energy =`); with the
leading spaces present the retry scenario does return `10.0`. -/
theorem C6_marker_amended :
    isEnergyLine "                   Total Energy = 10.0 X" = true ∧
    getEnergyRun [["FATAL -96: Could not check out a license for mmlibs"],
                  ["                   Total Energy = 10.0 X"]] =
      (.ok (100, 1), [false, true]) ∧
    Frac.toRat (100, 1) = (10 : ℚ) :=
  ⟨by decide, by decide, by norm_num [Frac.toRat]⟩

/-- C7: when `output_dir` is `None` the resolved destination directory is
the invocation's fresh token (`basename`); otherwise it is the configured
directory, for every invocation. -/
theorem C7_output_dir_resolution (path : String) (ff : Int) (uc : Bool)
    (b d : String) :
    MacroModelEnergy.resolveOutputDir ⟨path, none, ff, uc⟩ b = b ∧
    MacroModelEnergy.resolveOutputDir ⟨path, some d, ff, uc⟩ b = d :=
  ⟨rfl, rfl⟩

lemma no_nl_append {a b : String} (ha : '\n' ∉ a.data) (hb : '\n' ∉ b.data) :
    '\n' ∉ (a ++ b).data := by
  rw [String.data_append]
  intro h
  rcases List.mem_append.mp h with h | h
  · exact ha h
  · exact hb h

lemma no_nl_rightJustify (w : Nat) (s : String) (hs : '\n' ∉ s.data) :
    '\n' ∉ (rightJustify w s).data := by
  rw [rightJustify, String.data_append]
  intro h
  rcases List.mem_append.mp h with h | h
  · exact absurd (List.eq_of_mem_replicate h) (by decide)
  · exact hs h

lemma mk_data_eq (s : String) : String.mk s.data = s := rfl

lemma splitNlAux_newline (r acc : List Char) :
    splitNlAux ('\n' :: r) acc = String.mk acc.reverse :: splitNlAux r [] := by
  simp [splitNlAux]

lemma splitNlAux_no_newline (xs : List Char) :
    ∀ r acc, '\n' ∉ xs → splitNlAux (xs ++ r) acc = splitNlAux r (xs.reverse ++ acc) := by
  induction xs with
  | nil => intro r acc _; simp
  | cons c cs ih =>
      intro r acc h
      have hc : ¬(c = '\n') := fun hc => h (hc ▸ List.mem_cons_self _ _)
      rw [List.cons_append]
      show (if c = '\n' then _ else _) = _
      rw [if_neg hc, ih r (c :: acc) fun hm => h (List.mem_cons_of_mem _ hm)]
      simp

lemma splitLines_append (a s : String) (ha : '\n' ∉ a.data) :
    splitLines (a ++ ("\n" ++ s)) = a :: splitLines s := by
  show splitNlAux (a ++ ("\n" ++ s)).data [] = _
  have hd : (a ++ ("\n" ++ s)).data = a.data ++ ('\n' :: s.data) := by
    simp [String.data_append]
  rw [hd, splitNlAux_no_newline a.data _ _ ha, splitNlAux_newline]
  simp [mk_data_eq, splitLines]
lemma inputScript_grouped (b : String) (ff : Int) :
    inputScript b ff =
      (b ++ ".mae") ++ ("\n" ++
      ((b ++ "-out.maegz") ++ ("\n" ++
      (" MMOD       0      1      0      0     0.0000     0.0000     0.0000     0.0000" ++ ("\n" ++
      ((" FFLD" ++ rightJustify 8 (toString ff) ++ "      1      0      0     1.0000     0.0000     0.0000     0.0000") ++ ("\n" ++
      (" BGIN       0      0      0      0     0.0000     0.0000     0.0000     0.0000" ++ ("\n" ++
      (" READ      -1      0      0      0     0.0000     0.0000     0.0000     0.0000" ++ ("\n" ++
      (" ELST      -1      0      0      0     0.0000     0.0000     0.0000     0.0000" ++ ("\n" ++
      (" WRIT       0      0      0      0     0.0000     0.0000     0.0000     0.0000" ++ ("\n" ++
      (" END       0      0      0      0     0.0000     0.0000     0.0000     0.0000" ++ ("\n" ++ "\n"))))))))))))))))) := by
  simp only [inputScript]
  rw [show (".mae\n" : String) = ".mae" ++ "\n" from by decide]
  rw [show ("-out.maegz\n" : String) = "-out.maegz" ++ "\n" from by decide]
  rw [show ("0.0000     0.0000     0.0000\n\n" : String) = "0.0000     0.0000     0.0000" ++ "\n" ++ "\n" from by decide]
  rw [show ("0.0000     0.0000     0.0000\n" : String) = "0.0000     0.0000     0.0000" ++ "\n" from by decide]
  rw [show (" MMOD       0      1      0      0     0.0000     0.0000     0.0000     0.0000" : String) = " MMOD       0      1      0      0     0.0000     " ++ "0.0000     0.0000     0.0000" from by decide]
  rw [show (" BGIN       0      0      0      0     0.0000     0.0000     0.0000     0.0000" : String) = " BGIN       0      0      0      0     0.0000     " ++ "0.0000     0.0000     0.0000" from by decide]
  rw [show (" READ      -1      0      0      0     0.0000     0.0000     0.0000     0.0000" : String) = " READ      -1      0      0      0     0.0000     " ++ "0.0000     0.0000     0.0000" from by decide]
  rw [show (" ELST      -1      0      0      0     0.0000     0.0000     0.0000     0.0000" : String) = " ELST      -1      0      0      0     0.0000     " ++ "0.0000     0.0000     0.0000" from by decide]
  rw [show (" WRIT       0      0      0      0     0.0000     0.0000     0.0000     0.0000" : String) = " WRIT       0      0      0      0     0.0000     " ++ "0.0000     0.0000     0.0000" from by decide]
  rw [show (" END       0      0      0      0     0.0000     0.0000     0.0000     0.0000" : String) = " END       0      0      0      0     0.0000     " ++ "0.0000     0.0000     0.0000" from by decide]
  rw [show ("      1      0      0     1.0000     0.0000     0.0000     0.0000" : String) = "      1      0      0     1.0000     " ++ "0.0000     0.0000     0.0000" from by decide]
  simp only [String.append_assoc]
lemma inputScript_lines (b : String) (ff : Int)
    (hb : '\n' ∉ b.data) (hff : '\n' ∉ (toString ff).data) :
    splitLines (inputScript b ff) =
      [b ++ ".mae", b ++ "-out.maegz",
       " MMOD       0      1      0      0     0.0000     0.0000     0.0000     0.0000",
       " FFLD" ++ rightJustify 8 (toString ff) ++ "      1      0      0     1.0000     0.0000     0.0000     0.0000",
       " BGIN       0      0      0      0     0.0000     0.0000     0.0000     0.0000",
       " READ      -1      0      0      0     0.0000     0.0000     0.0000     0.0000",
       " ELST      -1      0      0      0     0.0000     0.0000     0.0000     0.0000",
       " WRIT       0      0      0      0     0.0000     0.0000     0.0000     0.0000",
       " END       0      0      0      0     0.0000     0.0000     0.0000     0.0000",
       "", ""] := by
  rw [inputScript_grouped b ff]
  rw [splitLines_append _ _ (no_nl_append hb (by decide))]
  rw [splitLines_append _ _ (no_nl_append hb (by decide))]
  rw [splitLines_append _ _ (by decide)]
  rw [splitLines_append _ _ (no_nl_append (no_nl_append (by decide)
    (no_nl_rightJustify 8 _ hff)) (by decide))]
  rw [splitLines_append _ _ (by decide)]
  rw [splitLines_append _ _ (by decide)]
  rw [splitLines_append _ _ (by decide)]
  rw [splitLines_append _ _ (by decide)]
  rw [splitLines_append _ _ (by decide)]
  rw [show splitLines "\n" = ["", ""] from by decide]

/-- C8: the generated `<token>.com` script's first two lines are the
token-based filenames `<token>.mae` and `<token>-out.maegz`, and its
`FFLD` line embeds the force-field code right-justified in an
8-character field. -/
theorem C8_com_script_layout (b : String) (ff : Int)
    (hb : '\n' ∉ b.data) (hff : '\n' ∉ (toString ff).data)
    (hw : (toString ff).length ≤ 8) :
    (splitLines (inputScript b ff)).get? 0 = some (b ++ ".mae") ∧
    (splitLines (inputScript b ff)).get? 1 = some (b ++ "-out.maegz") ∧
    (splitLines (inputScript b ff)).get? 3 =
      some (" FFLD" ++ rightJustify 8 (toString ff) ++
        "      1      0      0     1.0000     0.0000     0.0000     0.0000") ∧
    (rightJustify 8 (toString ff)).length = 8 ∧
    strEndsWith (rightJustify 8 (toString ff)) (toString ff) = true := by
  rw [inputScript_lines b ff hb hff]
  refine ⟨rfl, rfl, rfl, ?_, ?_⟩
  · rw [rightJustify, String.length_append, String.length_mk,
      List.length_replicate]
    omega
  · rw [strEndsWith, rightJustify, String.data_append, List.reverse_append]
    exact List.isPrefixOf_iff_prefix.mpr (List.prefix_append _ _)

theorem C8_com_script_layout_witness :
    ('\n' ∉ ("42" : String).data) ∧ ((toString (16 : Int)).length ≤ 8) ∧
    ((splitLines (inputScript "42" 16)).get? 0 = some ("42" ++ ".mae") ∧
     (splitLines (inputScript "42" 16)).get? 1 = some ("42" ++ "-out.maegz") ∧
     (splitLines (inputScript "42" 16)).get? 3 =
       some (" FFLD" ++ rightJustify 8 (toString (16 : Int)) ++
         "      1      0      0     1.0000     0.0000     0.0000     0.0000") ∧
     (rightJustify 8 (toString (16 : Int))).length = 8 ∧
     strEndsWith (rightJustify 8 (toString (16 : Int))) (toString (16 : Int)) = true) :=
  ⟨by decide, by decide,
   C8_com_script_layout "42" 16 (by decide) (by decide) (by decide)⟩

lemma append_ne_empty (a b : String) (hb : b ≠ "") : a ++ b ≠ "" := by
  intro h
  have hd := congrArg String.data h
  rw [String.data_append] at hd
  exact hb (String.ext (List.append_eq_nil.mp hd).2)

lemma strEndsWith_append_right (a b : String)
    (hb : strEndsWith b "/" = false) (hbne : b ≠ "") :
    strEndsWith (a ++ b) "/" = false := by
  rw [strEndsWith] at hb ⊢
  rw [String.data_append, List.reverse_append]
  rcases hd : b.data.reverse with _ | ⟨c, t⟩
  · exact absurd (String.ext (by simpa using congrArg List.reverse hd)) hbne
  · rw [hd] at hb
    rw [List.cons_append]
    simpa [List.isPrefixOf] using hb

/-- C9: each attempt spawns exactly two external processes, in order,
with arguments as a list: the converter
`[<suite_path>/utilities/structconvert, <token>.mol, <token>.mae]` and
then the minimizer `[<suite_path>/bmin, <token>, -WAIT, -LOCAL]` (for a
non-empty suite path without a trailing separator). -/
theorem C9_spawned_processes (c : MacroModelEnergy) (b : String)
    (hne : c.macromodel_path ≠ "")
    (hslash : strEndsWith c.macromodel_path "/" = false) :
    spawnedCommands c b =
      [[c.macromodel_path ++ "/utilities/structconvert",
        b ++ ".mol", b ++ ".mae"],
       [c.macromodel_path ++ "/bmin", b, "-WAIT", "-LOCAL"]] := by
  have h1 : osPathJoin c.macromodel_path "utilities" =
      c.macromodel_path ++ "/" ++ "utilities" := by
    rw [osPathJoin, if_neg (by decide), if_neg (by simp [hne, hslash])]
  have hne2 : c.macromodel_path ++ "/" ++ "utilities" ≠ "" :=
    append_ne_empty _ _ (by decide)
  have hslash2 : strEndsWith (c.macromodel_path ++ "/" ++ "utilities") "/" = false :=
    strEndsWith_append_right _ _ (by decide) (by decide)
  have h2 : osPathJoin (c.macromodel_path ++ "/" ++ "utilities") "structconvert" =
      c.macromodel_path ++ "/utilities/structconvert" := by
    rw [osPathJoin, if_neg (by decide), if_neg (by simp [hne2, hslash2])]
    rw [show ("/utilities/structconvert" : String) =
      "/" ++ ("utilities" ++ ("/" ++ "structconvert")) from by decide]
    simp only [String.append_assoc]
  have h3 : osPathJoin c.macromodel_path "bmin" =
      c.macromodel_path ++ "/bmin" := by
    rw [osPathJoin, if_neg (by decide), if_neg (by simp [hne, hslash])]
    rw [show ("/bmin" : String) = "/" ++ "bmin" from by decide]
    simp only [String.append_assoc]
  rw [spawnedCommands, convrtCmd, bminCmd, h1, h2, h3]

theorem C9_spawned_processes_witness :
    (("/opt/s" : String) ≠ "") ∧
    strEndsWith "/opt/s" "/" = false ∧
    spawnedCommands ⟨"/opt/s", none, 16, false⟩ "42" =
      [["/opt/s" ++ "/utilities/structconvert", "42" ++ ".mol", "42" ++ ".mae"],
       ["/opt/s" ++ "/bmin", "42", "-WAIT", "-LOCAL"]] :=
  ⟨by decide, by decide,
   C9_spawned_processes ⟨"/opt/s", none, 16, false⟩ "42" (by decide) (by decide)⟩

/-- C10: when the last marker-matching line ends with the numeric value
itself (`"                   Total Energy = -5.0"`), the second-to-last
token is `"="`, stripping `=` leaves the empty string, `float("")`
raises an unhandled `ValueError` (not `EnergyError`), and the attempt's
artifacts are not relocated (`false` move flag). -/
theorem C10_value_error_no_cleanup (pre : List String)
    (hlic : licenseFailure
      (pre ++ ["                   Total Energy = -5.0"]) = false)
    (hparse : ∀ l ∈ pre, isEnergyLine l = true → (parseEnergyValue l).isSome) :
    secondToLast (pySplit "                   Total Energy = -5.0") = some "=" ∧
    stripEquals "=" = "" ∧
    pyFloat "" = none ∧
    getEnergyRun [pre ++ ["                   Total Energy = -5.0"]] =
      (.valueError, [false]) := by
  refine ⟨by decide, by decide, by decide, ?_⟩
  rw [getEnergyRun_single _ hlic,
    scanLog_error pre _ (by decide) (by decide) none hparse]

theorem C10_value_error_no_cleanup_witness :
    licenseFailure [("                   Total Energy = -5.0" : String)] = false ∧
    (secondToLast (pySplit "                   Total Energy = -5.0") = some "=" ∧
     stripEquals "=" = "" ∧
     pyFloat "" = none ∧
     getEnergyRun [[("                   Total Energy = -5.0" : String)]] =
       (.valueError, [false])) := by
  refine ⟨by decide, ?_⟩
  have h := C10_value_error_no_cleanup [] (by decide) (by decide)
  simpa using h
